import Mathlib

/-!
# Verification of the rtsl latency parser (kernel/trace/trace_preemptirq.c)

A shallow embedding of the rtsl module: the per-CPU window state
(`RtslVariables`), the tracepoint event handlers, the enable/disable
lifecycle and the control-file read/write paths, together with theorems
about the properties of interest.

Modelling conventions:
* `u64` fields of the C code are `Nat`; the two `s64` durations are `Int`.
  The C conversions between `s64` and `u64` (record emission, the `max`
  comparisons and assignments, and the `+=` pushes of a window start) go
  through `u64` / `u64add` below, which reduce modulo `2 ^ 64` exactly as
  the machine does.
* Handlers run sequentially on one CPU.  In a sequential execution no
  interrupt can fire between the two reads of `int_counter`, so the retry
  loops of `get_int_safe_duration` / `set_int_safe_delta_start` execute
  their body exactly once; the embedding is that single iteration.
* Host-provided queries (`get_clock`, `current->pid`,
  `tif_need_resched_now`, `irqs_disabled`, the global enable flag read)
  are supplied per event in an `Env` record.
-/

namespace Rtsl

/-- Reinterpret an `s64` value as the `u64` the machine sees. -/
def u64 (x : Int) : Nat := (x % (2 : Int) ^ 64).toNat

/-- `u64` addition (used for the `+=` pushes of a window start). -/
def u64add (a b : Nat) : Nat := (a + b) % 2 ^ 64

/-- struct poid: preemption or IRQ disabled by a thread. -/
structure Poid where
  pd : Bool
  id : Bool
  delta_start : Nat
  max : Nat
deriving DecidableEq, Repr

/-- struct paie: preemption and IRQ enabled, ready to schedule. -/
structure Paie where
  delta_start : Nat
  max : Nat
deriving DecidableEq, Repr

/-- struct psd: preemption disabled to schedule. -/
structure Psd where
  delta_start : Nat
  max : Nat
deriving DecidableEq, Repr

/-- struct dst: the sched tail delay. -/
structure Dst where
  pid : Nat
  delta_start : Nat
  max : Nat
deriving DecidableEq, Repr

/-- struct irq: scratch for the currently executing hardware interrupt. -/
structure Irq where
  arrival_time : Nat
  delta_start : Nat
  was_psd : Bool
  vector : Int
deriving DecidableEq, Repr

/-- struct nmi: scratch for the currently executing NMI. -/
structure Nmi where
  delta_start : Nat
deriving DecidableEq, Repr

/-- struct rtsl_variables: the per-CPU state. -/
structure RtslVariables where
  int_counter : Nat
  poid : Poid
  paie : Paie
  psd : Psd
  dst : Dst
  irq : Irq
  nmi : Nmi
  running : Bool
deriving DecidableEq, Repr

/-- The zeroed per-CPU state (`rtsl_var_reset` output, memset 0). -/
def rtslZero : RtslVariables :=
  { int_counter := 0
    poid := { pd := false, id := false, delta_start := 0, max := 0 }
    paie := { delta_start := 0, max := 0 }
    psd := { delta_start := 0, max := 0 }
    dst := { pid := 0, delta_start := 0, max := 0 }
    irq := { arrival_time := 0, delta_start := 0, was_psd := false, vector := 0 }
    nmi := { delta_start := 0 }
    running := false }

/-- Host-provided values read by a handler during one event. -/
structure Env where
  now : Nat
  pid : Nat
  needResched : Bool
  irqsDisabled : Bool
  enabled : Bool
deriving DecidableEq, Repr

/-- The trace records pushed to the host sink (durations as `u64`). -/
inductive Record where
  | poid (duration : Nat)
  | max_poid (duration : Nat)
  | paie (duration : Nat)
  | max_paie (duration : Nat)
  | psd (duration : Nat)
  | max_psd (duration : Nat)
  | dst (duration : Nat)
  | max_dst (duration : Nat)
  | irq_execution (vector : Int) (arrival_time : Nat) (duration : Nat)
  | nmi_execution (start : Nat) (duration : Nat)
deriving DecidableEq, Repr

/-- get_int_safe_duration: returns the `s64` duration `now - *delta_start`
and the zeroed start.  Sequentially the retry loop runs exactly once. -/
def get_int_safe_duration (now : Nat) (delta_start : Nat) : Int × Nat :=
  ((now : Int) - (delta_start : Int), 0)

/-- set_int_safe_delta_start: `*delta_start ← get_clock()`.  Sequentially
the retry loop runs exactly once. -/
def set_int_safe_delta_start (now : Nat) : Nat := now

/-- rtsl_initialized: the initial-condition gate.  Returns the C result
(1 = proceed) and the possibly updated state (`rtsl_start`). -/
def rtsl_initialized (env : Env) (v : RtslVariables) : Bool × RtslVariables :=
  if v.running = false then
    if env.enabled = false then (false, v)
    else if env.irqsDisabled = true then (false, v)
    else (true, { v with running := true })
  else (true, v)

/-- poid_duration: close POID and emit `poid` / `max_poid`. -/
def poid_duration (env : Env) (v : RtslVariables) : RtslVariables × List Record :=
  if v.poid.delta_start = 0 then (v, [])
  else
    let p := get_int_safe_duration env.now v.poid.delta_start
    let duration := p.1
    let v := { v with poid := { v.poid with delta_start := p.2 } }
    if env.pid = 0 then (v, [])
    else if u64 duration < v.poid.max then (v, [Record.poid (u64 duration)])
    else
      ({ v with poid := { v.poid with max := u64 duration } },
        [Record.poid (u64 duration), Record.max_poid (u64 duration)])

/-- irq_occurence: close the IRQ window, emit `irq_execution`, push every
open window start forward by the IRQ duration. -/
def irq_occurence (env : Env) (v : RtslVariables) : RtslVariables × List Record :=
  let p := get_int_safe_duration env.now v.irq.delta_start
  let duration := p.1
  let recs := [Record.irq_execution v.irq.vector v.irq.arrival_time (u64 duration)]
  let poid :=
    if v.poid.delta_start ≠ 0 then
      { v.poid with delta_start := u64add v.poid.delta_start (u64 duration) }
    else v.poid
  let dst :=
    if v.dst.delta_start ≠ 0 then
      { v.dst with delta_start := u64add v.dst.delta_start (u64 duration) }
    else v.dst
  let paie :=
    if v.paie.delta_start ≠ 0 then
      { v.paie with delta_start := u64add v.paie.delta_start (u64 duration) }
    else v.paie
  let psd :=
    if v.irq.was_psd then
      { v.psd with delta_start := u64add v.psd.delta_start (u64 duration) }
    else v.psd
  let irq := { v.irq with delta_start := p.2, vector := 0, was_psd := false }
  ({ v with poid := poid, dst := dst, paie := paie, psd := psd, irq := irq }, recs)

/-- handle_irq_disable_normal: IRQ disabled by a thread. -/
def handle_irq_disable_normal (env : Env) (v : RtslVariables) : RtslVariables :=
  let v :=
    if v.psd.delta_start ≠ 0 then
      if v.dst.pid = env.pid then
        { v with dst := { v.dst with delta_start := set_int_safe_delta_start env.now } }
      else v
    else v
  let v := { v with poid := { v.poid with id := true } }
  if v.poid.delta_start ≠ 0 then v
  else { v with poid := { v.poid with delta_start := set_int_safe_delta_start env.now } }

/-- handle_irq_disable_irq: IRQ disabled by the entry point of an IRQ. -/
def handle_irq_disable_irq (env : Env) (v : RtslVariables) : RtslVariables :=
  let w := if v.psd.delta_start ≠ 0 then true else v.irq.was_psd
  let irq := { v.irq with was_psd := w, arrival_time := env.now, delta_start := set_int_safe_delta_start env.now }
  { v with irq := irq }

/-- handle_irq_enable_irq: IRQs enabled at the end of an IRQ. -/
def handle_irq_enable_irq (env : Env) (v : RtslVariables) : RtslVariables × List Record :=
  if v.running = false then (v, [])
  else irq_occurence env v

/-- handle_irq_enable_normal: IRQ enabled by a thread. -/
def handle_irq_enable_normal (env : Env) (v : RtslVariables) : RtslVariables × List Record :=
  if v.running = false then (v, [])
  else
    let v := { v with poid := { v.poid with id := false } }
    if v.poid.pd = true ∨ v.psd.delta_start ≠ 0 then (v, [])
    else
      let p := poid_duration env v
      if env.needResched then
        ({ p.1 with paie := { p.1.paie with delta_start := set_int_safe_delta_start env.now } },
          p.2)
      else p

/-- handle_preempt_disable_nosched: regular preempt disable (POID). -/
def handle_preempt_disable_nosched (env : Env) (v : RtslVariables) : RtslVariables :=
  if v.running = false then v
  else if v.irq.delta_start ≠ 0 then v
  else
    let v := { v with poid := { v.poid with pd := true } }
    if v.poid.id = true then v
    else { v with poid := { v.poid with delta_start := set_int_safe_delta_start env.now } }

/-- paie_duration: close PAIE and emit `paie` / `max_paie`. -/
def paie_duration (env : Env) (v : RtslVariables) : RtslVariables × List Record :=
  if v.paie.delta_start = 0 then (v, [])
  else
    let p := get_int_safe_duration env.now v.paie.delta_start
    let duration := p.1
    let v := { v with paie := { v.paie with delta_start := p.2 } }
    if env.pid = 0 then (v, [])
    else if v.paie.max > u64 duration then (v, [Record.paie (u64 duration)])
    else
      ({ v with paie := { v.paie with max := u64 duration } },
        [Record.paie (u64 duration), Record.max_paie (u64 duration)])

/-- handle_preempt_enable_nosched: regular preempt enable (POID). -/
def handle_preempt_enable_nosched (env : Env) (v : RtslVariables) :
    RtslVariables × List Record :=
  if v.running = false then (v, [])
  else if v.irq.delta_start ≠ 0 then (v, [])
  else
    let v := { v with poid := { v.poid with pd := false } }
    if v.poid.id = true then (v, [])
    else
      let p := poid_duration env v
      if env.needResched then
        ({ p.1 with paie := { p.1.paie with delta_start := set_int_safe_delta_start env.now } },
          p.2)
      else p

/-- handle_preempt_disable_sched: first action for scheduling. -/
def handle_preempt_disable_sched (env : Env) (v : RtslVariables) :
    RtslVariables × List Record :=
  let g := rtsl_initialized env v
  if g.1 = false then (g.2, [])
  else
    let v := g.2
    let p :=
      if env.needResched = true ∧ v.irq.delta_start = 0 ∧ v.poid.id = false then
        paie_duration env v
      else (v, [])
    let v := { p.1 with paie := { p.1.paie with delta_start := 0 } }
    let v := { v with dst := { v.dst with pid := env.pid } }
    ({ v with psd := { v.psd with delta_start := set_int_safe_delta_start env.now } }, p.2)

/-- handle_preempt_enable_sched: last action of the scheduler. -/
def handle_preempt_enable_sched (env : Env) (v : RtslVariables) :
    RtslVariables × List Record :=
  if v.running = false then (v, [])
  else
    let q :=
      if v.dst.delta_start ≠ 0 then
        let p := get_int_safe_duration env.now v.dst.delta_start
        let dst_duration := u64 p.1
        let v := { v with dst := { v.dst with delta_start := p.2 } }
        if dst_duration > v.dst.max then
          ({ v with dst := { v.dst with max := dst_duration } },
            [Record.dst dst_duration, Record.max_dst dst_duration])
        else (v, [Record.dst dst_duration])
      else (v, [])
    let v := q.1
    let p := get_int_safe_duration env.now v.psd.delta_start
    let psd_duration := u64 p.1
    let v := { v with psd := { v.psd with delta_start := p.2 } }
    let r :=
      if psd_duration > v.psd.max then
        ({ v with psd := { v.psd with max := psd_duration } },
          [Record.psd psd_duration, Record.max_psd psd_duration])
      else (v, [Record.psd psd_duration])
    if env.needResched then
      ({ r.1 with paie := { r.1.paie with delta_start := set_int_safe_delta_start env.now } },
        q.2 ++ r.2)
    else (r.1, q.2 ++ r.2)

/-- handle_nmi_entry: record the NMI start time. -/
def handle_nmi_entry (env : Env) (v : RtslVariables) : RtslVariables :=
  if v.running = false then v
  else { v with nmi := { delta_start := env.now } }

/-- handle_nmi_exit: emit `nmi_execution`, bump `int_counter`, push every
open window start (IRQ included) forward by the NMI duration. -/
def handle_nmi_exit (env : Env) (v : RtslVariables) : RtslVariables × List Record :=
  if v.running = false then (v, [])
  else
    let duration := u64 ((env.now : Int) - (v.nmi.delta_start : Int))
    let recs := [Record.nmi_execution v.nmi.delta_start duration]
    let v := { v with int_counter := v.int_counter + 1 }
    let irq :=
      if v.irq.delta_start ≠ 0 then
        { v.irq with delta_start := u64add v.irq.delta_start duration }
      else v.irq
    let poid :=
      if v.poid.delta_start ≠ 0 then
        { v.poid with delta_start := u64add v.poid.delta_start duration }
      else v.poid
    let psd :=
      if v.psd.delta_start ≠ 0 then
        { v.psd with delta_start := u64add v.psd.delta_start duration }
      else v.psd
    let dst :=
      if v.dst.delta_start ≠ 0 then
        { v.dst with delta_start := u64add v.dst.delta_start duration }
      else v.dst
    let paie :=
      if v.paie.delta_start ≠ 0 then
        { v.paie with delta_start := u64add v.paie.delta_start duration }
      else v.paie
    ({ v with irq := irq, poid := poid, psd := psd, dst := dst, paie := paie }, recs)

/-- handle_irq_vector_entry: store the vector id, bump `int_counter`. -/
def handle_irq_vector_entry (vector : Int) (v : RtslVariables) : RtslVariables :=
  if v.running = false then v
  else { v with irq := { v.irq with vector := vector }, int_counter := v.int_counter + 1 }

/-- handle_irq_entry: store the logical IRQ number, bump `int_counter`. -/
def handle_irq_entry (irq_nr : Int) (v : RtslVariables) : RtslVariables :=
  if v.running = false then v
  else { v with irq := { v.irq with vector := irq_nr }, int_counter := v.int_counter + 1 }

/-- The hooked tracepoint events, with the flags the host passes. -/
inductive Event where
  | irq_disable (irq_entry : Bool)
  | irq_enable (irq_exit : Bool)
  | preempt_disable (to_schedule : Bool)
  | preempt_enable (to_schedule : Bool)
  | nmi_entry
  | nmi_exit
  | irq_vector_entry (vector : Int)
  | irq_handler_entry (irq_nr : Int)
deriving DecidableEq, Repr

/-- One tracepoint firing: dispatch to the handler, as the C dispatchers
`handle_irq_disable`, `handle_irq_enable`, `handle_preempt_disable`,
`handle_preempt_enable` and the remaining probes do. -/
def step (env : Env) (v : RtslVariables) : Event → RtslVariables × List Record
  | .irq_disable irq_entry =>
    if v.running = false then (v, [])
    else if irq_entry then (handle_irq_disable_irq env v, [])
    else (handle_irq_disable_normal env v, [])
  | .irq_enable irq_exit =>
    if v.running = false then (v, [])
    else if irq_exit then handle_irq_enable_irq env v
    else handle_irq_enable_normal env v
  | .preempt_disable to_schedule =>
    if to_schedule then handle_preempt_disable_sched env v
    else (handle_preempt_disable_nosched env v, [])
  | .preempt_enable to_schedule =>
    if to_schedule then handle_preempt_enable_sched env v
    else handle_preempt_enable_nosched env v
  | .nmi_entry => (handle_nmi_entry env v, [])
  | .nmi_exit => handle_nmi_exit env v
  | .irq_vector_entry vector => (handle_irq_vector_entry vector v, [])
  | .irq_handler_entry irq_nr => (handle_irq_entry irq_nr v, [])

/-- Run a synthetic per-CPU event trace, collecting the emitted records. -/
def runTrace (v : RtslVariables) : List (Env × Event) → RtslVariables × List Record
  | [] => (v, [])
  | ee :: rest =>
    let s := step ee.1 v ee.2
    let r := runTrace s.1 rest
    (r.1, s.2 ++ r.2)

/-! ## Lifecycle controller and control interface -/

/-- One entry of the `tps` array.  `found` models whether
`get_struct_tracepoint` locates the tracepoint, `regOk` whether
`tracepoint_probe_register` succeeds, `registered` is the bookkeeping
field of the C struct, and `hostRegistered` models whether the probe is
currently attached in the host tracepoint registry. -/
structure TpAndName where
  found : Bool
  regOk : Bool
  registered : Bool
  hostRegistered : Bool
deriving DecidableEq, Repr

def EINVAL : Int := 22
def EFAULT : Int := 14

/-- The registration loop of `register_tracepoints`: walk the array,
mark `registered` and attach each probe, stopping at the first failure
(tracepoint not found, or probe registration error).  Returns the C
loop outcome and the updated array. -/
def register_each : List TpAndName → Bool × List TpAndName
  | [] => (true, [])
  | tp :: rest =>
    if tp.found = false then (false, tp :: rest)
    else if tp.regOk = false then (false, { tp with registered := true } :: rest)
    else
      let p := register_each rest
      (p.1, { tp with registered := true, hostRegistered := true } :: p.2)

/-- The `out_err` rollback of `register_tracepoints`: detach every probe
whose `registered` flag is set (the flags themselves are not cleared). -/
def rollback_registered (tps : List TpAndName) : List TpAndName :=
  tps.map fun tp => if tp.registered then { tp with hostRegistered := false } else tp

/-- register_tracepoints: register all probes, rolling back on failure. -/
def register_tracepoints (tps : List TpAndName) : Int × List TpAndName :=
  let p := register_each tps
  if p.1 then (0, p.2)
  else (-EINVAL, rollback_registered p.2)

/-- unregister_tracepoints: detach every registered probe and clear
its `registered` flag. -/
def unregister_tracepoints (tps : List TpAndName) : List TpAndName :=
  tps.map fun tp =>
    if tp.registered then { tp with hostRegistered := false, registered := false } else tp

/-- The global state seen by the lifecycle controller. -/
structure SystemState where
  enabled : Bool
  cpus : List RtslVariables
  tps : List TpAndName
deriving DecidableEq, Repr

/-- rtsl_var_reset: memset the per-CPU state to zero. -/
def rtsl_var_reset (_ : RtslVariables) : RtslVariables := rtslZero

/-- rtsl_var_init_all: zero every online CPU's state. -/
def rtsl_var_init_all (cpus : List RtslVariables) : List RtslVariables :=
  cpus.map rtsl_var_reset

/-- rtsl_var_destroy_all: zero every online CPU's state. -/
def rtsl_var_destroy_all (cpus : List RtslVariables) : List RtslVariables :=
  cpus.map rtsl_var_reset

/-- rtsl_enable: zero the per-CPU state, register the probes (failing
with `-EINVAL` and no state change of the global flag on error), then
set the global enable flag. -/
def rtsl_enable (s : SystemState) : Int × SystemState :=
  let s := { s with cpus := rtsl_var_init_all s.cpus }
  let p := register_tracepoints s.tps
  let s := { s with tps := p.2 }
  if p.1 ≠ 0 then (-EINVAL, s)
  else (0, { s with enabled := true })

/-- The observable actions of `rtsl_disable`, in source order. -/
inductive DisableStep where
  | clear_enabled
  | stop_cpus
  | unregister_probes
  | zero_state
deriving DecidableEq, Repr

/-- rtsl_disable: clear the global flag, zero every CPU's state
(`rtsl_var_destroy_all`), then unregister the probes.  The returned
list records the order of the three operations actually performed. -/
def rtsl_disable (s : SystemState) : SystemState × List DisableStep :=
  let s := { s with enabled := false }
  let s := { s with cpus := rtsl_var_destroy_all s.cpus }
  let s := { s with tps := unregister_tracepoints s.tps }
  (s, [DisableStep.clear_enabled, DisableStep.zero_state, DisableStep.unregister_probes])

/-- Kernel helper `simple_write_to_buffer` (external to this repository,
modelled from its kernel semantics): copy up to `count` bytes of user
`data` into `buf` at offset `pos`, where `buf` holds `available` usable
bytes; `uncopied` models how many of the requested bytes
`copy_from_user` fails to transfer.  Returns the C return value, the
updated buffer and the updated file offset. -/
def simple_write_to_buffer (available pos : Nat) (buf data : List Char)
    (count uncopied : Nat) : Int × List Char × Nat :=
  if available ≤ pos ∨ count = 0 then (0, buf, pos)
  else
    let c := min count (available - pos)
    let res := min uncopied c
    if res = c then (-EFAULT, buf, pos)
    else
      let w := c - res
      ((w : Nat), buf.take pos ++ data.take w ++ buf.drop (pos + w), pos + w)

/-- The lifecycle calls made while handling a write to the enable file. -/
inductive LifecycleAction where
  | disable
  | enable
deriving DecidableEq, Repr

/-- rtsl_enable_write_data: the write handler of the `enable` file.
Returns the C return value, the `rtsl_enable` / `rtsl_disable` calls
performed (in order), and the updated file offset. -/
def rtsl_enable_write_data (enabled : Bool) (count pos : Nat) (data : List Char)
    (uncopied : Nat) : Int × List LifecycleAction × Nat :=
  if count < 1 ∨ count > 3 then (-EINVAL, [], pos)
  else
    let buf : List Char := [Char.ofNat 0, Char.ofNat 0, Char.ofNat 0]
    let p := simple_write_to_buffer 2 pos buf data count uncopied
    if p.1 = 0 then (-EFAULT, [], p.2.2)
    else
      let c := p.2.1.headD (Char.ofNat 0)
      if c = '1' then
        (p.1, (if enabled then [LifecycleAction.disable] else []) ++ [LifecycleAction.enable],
          p.2.2)
      else if c = '0' then
        (p.1, if enabled then [LifecycleAction.disable] else [], p.2.2)
      else (-EINVAL, [], p.2.2)

/-- Kernel helper `strlen` over a NUL-terminated char buffer. -/
def strlen (l : List Char) : Nat := (l.takeWhile (fun c => c ≠ Char.ofNat 0)).length

/-- Kernel helper `simple_read_from_buffer` (external to this repository,
modelled from its kernel semantics): copy up to `count` bytes of the
`available`-byte source `from_` starting at offset `pos` to user space.
Returns the bytes delivered and the updated file offset. -/
def simple_read_from_buffer (count pos : Nat) (from_ : List Char) (available : Nat) :
    List Char × Nat :=
  if available ≤ pos then ([], pos)
  else
    let n := min count (available - pos)
    ((from_.drop pos).take n, pos + n)

/-- rtsl_enable_read_data: the read handler of the `enable` file.
`sprintf(buf, "%x\n", enabled)` fills a zeroed 4-byte buffer and the
source passes `strlen(buf) + 1` as the available size. -/
def rtsl_enable_read_data (enabled : Bool) (count pos : Nat) : List Char × Nat :=
  let buf : List Char := [if enabled then '1' else '0', '\n', Char.ofNat 0, Char.ofNat 0]
  simple_read_from_buffer count pos buf (strlen buf + 1)

/-! ## Trace observations and synthetic traces used by the claims -/

/-- The durations of the `poid` records of an emitted record list. -/
def poidRecords (l : List Record) : List Nat :=
  l.filterMap fun r => match r with | Record.poid d => some d | _ => none

/-- The durations of the `max_poid` records of an emitted record list. -/
def maxPoidVals (l : List Record) : List Nat :=
  l.filterMap fun r => match r with | Record.max_poid d => some d | _ => none

/-- The durations of the `max_paie` records of an emitted record list. -/
def maxPaieVals (l : List Record) : List Nat :=
  l.filterMap fun r => match r with | Record.max_paie d => some d | _ => none

/-- The durations of the `max_psd` records of an emitted record list. -/
def maxPsdVals (l : List Record) : List Nat :=
  l.filterMap fun r => match r with | Record.max_psd d => some d | _ => none

/-- The durations of the `max_dst` records of an emitted record list. -/
def maxDstVals (l : List Record) : List Nat :=
  l.filterMap fun r => match r with | Record.max_dst d => some d | _ => none

/-- An event environment with no pending re-schedule, interrupts enabled
and the module globally enabled. -/
def mkEnv (now pid : Nat) : Env :=
  { now := now, pid := pid, needResched := false, irqsDisabled := false, enabled := true }

/-- How one step may change a `max` field relative to the max-records it
emits: either nothing of that kind is emitted and the field is
unchanged, or a single record with value `d` satisfying `r old d` is
emitted and the field becomes `d`. -/
def MaxEvolves (r : Nat → Nat → Prop) (m : Nat) (ds : List Nat) (m2 : Nat) : Prop :=
  (ds = [] ∧ m2 = m) ∨ ∃ d, ds = [d] ∧ r m d ∧ m2 = d

/-- A POID window `[t0, t1]` with the IRQ intervals of `l` nested inside
it in order: `t0 ≤ a₁ ≤ b₁ ≤ a₂ ≤ … ≤ bₙ ≤ t1`. -/
def timesOrdered : Nat → List (Nat × Nat) → Nat → Prop
  | t, [], t1 => t ≤ t1
  | t, p :: rest, t1 => t ≤ p.1 ∧ p.1 ≤ p.2 ∧ timesOrdered p.2 rest t1

instance timesOrdered.instDecidable :
    (t : Nat) → (l : List (Nat × Nat)) → (t1 : Nat) → Decidable (timesOrdered t l t1)
  | t, [], t1 => inferInstanceAs (Decidable (t ≤ t1))
  | _t, p :: rest, t1 =>
    have : Decidable (timesOrdered p.2 rest t1) := timesOrdered.instDecidable p.2 rest t1
    inferInstanceAs (Decidable (_ ∧ _ ∧ _))

/-- The total duration of the IRQ intervals of `l`. -/
def irqTotal (l : List (Nat × Nat)) : Nat := (l.map fun p => p.2 - p.1).sum

/-- The events of a sequence of complete IRQ episodes (entry at `aᵢ`,
exit at `bᵢ`), as the host delivers them. -/
def irqEpisodes (pid : Nat) : List (Nat × Nat) → List (Env × Event)
  | [] => []
  | p :: rest =>
    (mkEnv p.1 pid, Event.irq_disable true) ::
      (mkEnv p.2 pid, Event.irq_enable true) :: irqEpisodes pid rest

/-- A POID window opened at `t0` by a thread disabling preemption and
closed at `t1`, with the IRQ episodes of `l` inside it. -/
def c1Trace (pid t0 t1 : Nat) (l : List (Nat × Nat)) : List (Env × Event) :=
  (mkEnv t0 pid, Event.preempt_disable false) ::
    (irqEpisodes pid l ++ [(mkEnv t1 pid, Event.preempt_enable false)])

/-- One enable epoch containing two POID windows of equal length (30–40
and 50–60), preceded by the initial-condition scheduler round trip. -/
def c2Trace : List (Env × Event) :=
  [ (mkEnv 10 5, Event.preempt_disable true)
  , (mkEnv 20 5, Event.preempt_enable true)
  , (mkEnv 30 5, Event.preempt_disable false)
  , (mkEnv 40 5, Event.preempt_enable false)
  , (mkEnv 50 5, Event.preempt_disable false)
  , (mkEnv 60 5, Event.preempt_enable false) ]

/-! ## Basic lemmas -/

lemma u64_ofNat (n : Nat) (h : n < 2 ^ 64) : u64 (n : Int) = n := by
  unfold u64
  rw [Int.emod_eq_of_lt (by positivity) (by exact_mod_cast h)]
  simp

lemma u64_sub (a b : Nat) (hba : b ≤ a) (ha : a < 2 ^ 64) :
    u64 ((a : Int) - (b : Int)) = a - b := by
  have hcast : (a : Int) - (b : Int) = ((a - b : Nat) : Int) := by omega
  rw [hcast, u64_ofNat]
  omega

lemma u64add_small (a b : Nat) (h : a + b < 2 ^ 64) : u64add a b = a + b := by
  unfold u64add
  exact Nat.mod_eq_of_lt h

/-! ## C5: read path of the enable file -/

/-- C5 counterexample: a read of the enable file from offset 0 with a
large buffer returns three bytes (digit, newline, NUL terminator), not
two: the source passes `strlen(buf) + 1` as the available size. -/
theorem rtsl_c5_counterexample :
    (rtsl_enable_read_data false 10 0).1 = ['0', '\n', Char.ofNat 0] ∧
    (rtsl_enable_read_data false 10 0).1.length ≠ 2 := by
  decide

/-- C5 amended: for every read of the enable control file from offset 0
with a buffer of at least 3 bytes, the data returned is exactly three
bytes: one hex digit ('0' when disabled, '1' when enabled), a newline,
and a trailing NUL byte. -/
theorem rtsl_c5_amended (enabled : Bool) (count : Nat) (h : 3 ≤ count) :
    rtsl_enable_read_data enabled count 0 =
      ([if enabled then '1' else '0', '\n', Char.ofNat 0], 3) := by
  have hmin : min count 3 = 3 := by omega
  cases enabled <;>
    simp [rtsl_enable_read_data, simple_read_from_buffer, strlen, hmin]

/-- C5 witness. -/
theorem rtsl_c5_witness :
    rtsl_enable_read_data true 7 0 = (['1', '\n', Char.ofNat 0], 3) :=
  rtsl_c5_amended true 7 (by decide)

/-! ## C7: order of operations in rtsl_disable -/

/-- C7 counterexample: `rtsl_disable` does not perform the claimed
sequence (clear flag, stop CPUs, unregister, zero state); it clears the
flag, zeroes the per-CPU state, and only then unregisters the probes. -/
theorem rtsl_c7_counterexample :
    (rtsl_disable { enabled := true, cpus := [], tps := [] }).2 ≠
      [DisableStep.clear_enabled, DisableStep.stop_cpus, DisableStep.unregister_probes,
       DisableStep.zero_state] ∧
    (rtsl_disable { enabled := true, cpus := [], tps := [] }).2 =
      [DisableStep.clear_enabled, DisableStep.zero_state, DisableStep.unregister_probes] := by
  decide

/-- C7 amended: `rtsl_disable` first clears the global enabled flag,
then zeroes every CPU's state (which sets `running` to false as part of
the zeroing; there is no separate running-clearing pass), and only then
unregisters all probes. -/
theorem rtsl_c7_amended (s : SystemState) :
    (rtsl_disable s).2 =
      [DisableStep.clear_enabled, DisableStep.zero_state, DisableStep.unregister_probes] ∧
    (rtsl_disable s).1.enabled = false ∧
    (∀ v ∈ (rtsl_disable s).1.cpus, v = rtslZero ∧ v.running = false) ∧
    (∀ tp ∈ (rtsl_disable s).1.tps, tp.registered = false) := by
  refine ⟨rfl, rfl, ?_, ?_⟩
  · intro v hv
    simp only [rtsl_disable, rtsl_var_destroy_all, rtsl_var_reset, List.mem_map] at hv
    obtain ⟨_, _, rfl⟩ := hv
    exact ⟨rfl, rfl⟩
  · intro tp htp
    simp only [rtsl_disable, unregister_tracepoints, List.mem_map] at htp
    obtain ⟨tp0, _, rfl⟩ := htp
    by_cases hr : tp0.registered
    · simp [hr]
    · simp [hr]

/-! ## C4: write path of the enable file -/

/-- A successful fresh write (`pos = 0`, full copy) delivers the user's
first byte as `buf[0]` and returns `min count 2` bytes written. -/
lemma write_buf_head (count : Nat) (data : List Char) (h1 : 1 ≤ count) :
    simple_write_to_buffer 2 0 [Char.ofNat 0, Char.ofNat 0, Char.ofNat 0] data count 0 =
      (((min count 2 : Nat) : Int),
        data.take (min count 2) ++ [Char.ofNat 0, Char.ofNat 0, Char.ofNat 0].drop (min count 2),
        min count 2) := by
  simp only [simple_write_to_buffer]
  split_ifs with hcond hres
  · exact absurd hcond (by omega)
  · exfalso
    simp only [Nat.sub_zero, Nat.zero_min] at hres
    omega
  · simp

lemma headD_take_append (data : List Char) (w : Nat) (hw : 1 ≤ w) (tail : List Char) :
    (data.take w ++ tail).headD (Char.ofNat 0) =
      data.headD (tail.headD (Char.ofNat 0)) := by
  cases data with
  | nil => simp
  | cons d ds =>
    obtain ⟨w, rfl⟩ := Nat.exists_eq_add_of_le hw
    simp [List.take_succ_cons, Nat.add_comm]

/-- C4: behaviour of `rtsl_enable_write_data`.  (1) out-of-range lengths
are rejected with invalid-argument; (2) when the buffer copy transfers
zero bytes (offset past the buffer) the write fails with bad-address;
with a fresh, fully-copied write: (3) a first byte '1' disables then
enables when already enabled and just enables otherwise, (4) a first
byte '0' disables exactly when enabled, (5) any other first byte yields
invalid-argument and no lifecycle call. -/
theorem rtsl_c4 :
    (∀ (enabled : Bool) (count pos : Nat) (data : List Char) (uncopied : Nat),
        count < 1 ∨ 3 < count →
        rtsl_enable_write_data enabled count pos data uncopied = (-EINVAL, [], pos)) ∧
    (∀ (enabled : Bool) (count pos : Nat) (data : List Char) (uncopied : Nat),
        1 ≤ count → count ≤ 3 → 2 ≤ pos →
        rtsl_enable_write_data enabled count pos data uncopied = (-EFAULT, [], pos)) ∧
    (∀ (enabled : Bool) (count : Nat) (data : List Char),
        1 ≤ count → count ≤ 3 → data.headD (Char.ofNat 0) = '1' →
        (rtsl_enable_write_data enabled count 0 data 0).2.1 =
          (if enabled then [LifecycleAction.disable] else []) ++ [LifecycleAction.enable]) ∧
    (∀ (enabled : Bool) (count : Nat) (data : List Char),
        1 ≤ count → count ≤ 3 → data.headD (Char.ofNat 0) = '0' →
        (rtsl_enable_write_data enabled count 0 data 0).2.1 =
          (if enabled then [LifecycleAction.disable] else [])) ∧
    (∀ (enabled : Bool) (count : Nat) (data : List Char),
        1 ≤ count → count ≤ 3 →
        data.headD (Char.ofNat 0) ≠ '1' → data.headD (Char.ofNat 0) ≠ '0' →
        (rtsl_enable_write_data enabled count 0 data 0).1 = -EINVAL ∧
        (rtsl_enable_write_data enabled count 0 data 0).2.1 = []) := by
  have hkey : ∀ (enabled : Bool) (count : Nat) (data : List Char), 1 ≤ count → count ≤ 3 →
      rtsl_enable_write_data enabled count 0 data 0 =
        (if data.headD (Char.ofNat 0) = '1' then
          (((min count 2 : Nat) : Int),
            (if enabled then [LifecycleAction.disable] else []) ++ [LifecycleAction.enable],
            min count 2)
        else if data.headD (Char.ofNat 0) = '0' then
          (((min count 2 : Nat) : Int),
            if enabled then [LifecycleAction.disable] else [], min count 2)
        else (-EINVAL, [], min count 2)) := by
    intro enabled count data h1 h3
    have hrange : ¬ (count < 1 ∨ count > 3) := by omega
    have hw : (1 : Nat) ≤ min count 2 := by omega
    have hz : ¬ (((min count 2 : Nat) : Int) = 0) := by
      simp only [Int.natCast_eq_zero]
      omega
    simp only [rtsl_enable_write_data, if_neg hrange, write_buf_head count data h1,
      if_neg hz, headD_take_append data (min count 2) hw]
    have h12 : min count 2 = 1 ∨ min count 2 = 2 := by omega
    rcases h12 with h12 | h12 <;> rw [h12] <;> rfl
  refine ⟨?_, ?_, ?_, ?_, ?_⟩
  · intro enabled count pos data uncopied h
    have hrange : count < 1 ∨ count > 3 := by omega
    rw [rtsl_enable_write_data, if_pos hrange]
  · intro enabled count pos data uncopied h1 h3 hpos
    have hrange : ¬ (count < 1 ∨ count > 3) := by omega
    have havail : (2 : Nat) ≤ pos ∨ count = 0 := Or.inl hpos
    rw [rtsl_enable_write_data, if_neg hrange]
    simp [simple_write_to_buffer, hpos]
  · intro enabled count data h1 h3 hd
    rw [hkey enabled count data h1 h3, if_pos hd]
  · intro enabled count data h1 h3 hd
    have hd1 : data.headD (Char.ofNat 0) ≠ '1' := by rw [hd]; decide
    rw [hkey enabled count data h1 h3, if_neg hd1, if_pos hd]
  · intro enabled count data h1 h3 hd1 hd0
    rw [hkey enabled count data h1 h3, if_neg hd1, if_neg hd0]
    exact ⟨rfl, rfl⟩

/-- C4 witness. -/
theorem rtsl_c4_witness :
    rtsl_enable_write_data true 5 0 ['1'] 0 = (-EINVAL, [], 0) ∧
    rtsl_enable_write_data true 2 3 ['1'] 0 = (-EFAULT, [], 3) ∧
    (rtsl_enable_write_data true 1 0 ['1'] 0).2.1 =
      [LifecycleAction.disable, LifecycleAction.enable] ∧
    (rtsl_enable_write_data false 1 0 ['0'] 0).2.1 = [] ∧
    (rtsl_enable_write_data false 1 0 ['x'] 0).1 = -EINVAL := by
  refine ⟨rtsl_c4.1 true 5 0 ['1'] 0 (by decide),
    rtsl_c4.2.1 true 2 3 ['1'] 0 (by decide) (by decide) (by decide), ?_, ?_, ?_⟩
  · have h := rtsl_c4.2.2.1 true 1 ['1'] (by decide) (by decide) (by decide)
    simpa using h
  · have h := rtsl_c4.2.2.2.1 false 1 ['0'] (by decide) (by decide) (by decide)
    simpa using h
  · exact (rtsl_c4.2.2.2.2 false 1 ['x'] (by decide) (by decide) (by decide) (by decide)).1

/-! ## C6: rollback on probe-registration failure -/

lemma register_each_fails (tps : List TpAndName)
    (h : ∃ tp ∈ tps, tp.found = false ∨ tp.regOk = false) :
    (register_each tps).1 = false := by
  induction tps with
  | nil => simp at h
  | cons tp rest ih =>
    obtain ⟨tp0, htp0, hfail⟩ := h
    rw [register_each]
    by_cases hf : tp.found = false
    · rw [if_pos hf]
    · rw [if_neg hf]
      by_cases hr : tp.regOk = false
      · rw [if_pos hr]
      · rw [if_neg hr]
        have hmem : tp0 ∈ rest := by
          rcases List.mem_cons.mp htp0 with rfl | hmem
          · rcases hfail with h' | h'
            · exact absurd h' hf
            · exact absurd h' hr
          · exact hmem
        exact ih ⟨tp0, hmem, hfail⟩

lemma register_each_host (tps : List TpAndName)
    (h : ∀ tp ∈ tps, tp.hostRegistered = false) :
    ∀ tp ∈ (register_each tps).2, tp.hostRegistered = true → tp.registered = true := by
  induction tps with
  | nil => simp [register_each]
  | cons tp rest ih =>
    have hhead : tp.hostRegistered = false := h tp (List.mem_cons_self tp rest)
    have htail : ∀ tp2 ∈ rest, tp2.hostRegistered = false :=
      fun tp2 h2 => h tp2 (List.mem_cons_of_mem tp h2)
    rw [register_each]
    by_cases hf : tp.found = false
    · rw [if_pos hf]
      intro tp1 htp1 hhost
      rcases List.mem_cons.mp htp1 with rfl | hmem
      · exact absurd hhost (by simp [hhead])
      · exact absurd hhost (by simp [htail tp1 hmem])
    · rw [if_neg hf]
      by_cases hr : tp.regOk = false
      · rw [if_pos hr]
        intro tp1 htp1 hhost
        rcases List.mem_cons.mp htp1 with rfl | hmem
        · exact absurd hhost (by simp [hhead])
        · exact absurd hhost (by simp [htail tp1 hmem])
      · rw [if_neg hr]
        intro tp1 htp1 hhost
        rcases List.mem_cons.mp htp1 with rfl | hmem
        · rfl
        · exact ih htail tp1 hmem hhost

lemma rollback_clears (tps : List TpAndName)
    (h : ∀ tp ∈ tps, tp.hostRegistered = true → tp.registered = true) :
    ∀ tp ∈ rollback_registered tps, tp.hostRegistered = false := by
  intro tp htp
  simp only [rollback_registered, List.mem_map] at htp
  obtain ⟨tp0, h0, rfl⟩ := htp
  by_cases hr : tp0.registered
  · simp [hr]
  · simp only [hr, if_false]
    by_cases hh : tp0.hostRegistered = true
    · exact absurd (h tp0 h0 hh) hr
    · simpa using hh

/-- C6: if any tracepoint-probe registration fails during enable, every
probe registered earlier in that enable call is unregistered (the host
registry ends with no probe of this module attached), enable returns
invalid-argument, and the global enabled flag remains false. -/
theorem rtsl_c6 (s : SystemState)
    (hhost : ∀ tp ∈ s.tps, tp.hostRegistered = false)
    (hen : s.enabled = false)
    (hfail : ∃ tp ∈ s.tps, tp.found = false ∨ tp.regOk = false) :
    (rtsl_enable s).1 = -EINVAL ∧
    (rtsl_enable s).2.enabled = false ∧
    ∀ tp ∈ (rtsl_enable s).2.tps, tp.hostRegistered = false := by
  have hfl := register_each_fails s.tps hfail
  have hhost2 := register_each_host s.tps hhost
  rw [rtsl_enable, register_tracepoints]
  simp only [hfl, if_false]
  have hne : (-EINVAL : Int) ≠ 0 := by decide
  simp only [hne, if_true, ne_eq, not_false_iff, if_pos]
  exact ⟨rfl, hen, rollback_clears _ hhost2⟩

/-- C6 witness. -/
theorem rtsl_c6_witness :
    (rtsl_enable
        { enabled := false, cpus := [rtslZero],
          tps := [{ found := true, regOk := true, registered := false, hostRegistered := false },
                  { found := false, regOk := true, registered := false,
                    hostRegistered := false }] }).1 = -EINVAL ∧
    (rtsl_enable
        { enabled := false, cpus := [rtslZero],
          tps := [{ found := true, regOk := true, registered := false, hostRegistered := false },
                  { found := false, regOk := true, registered := false,
                    hostRegistered := false }] }).2.enabled = false ∧
    ∀ tp ∈ (rtsl_enable
        { enabled := false, cpus := [rtslZero],
          tps := [{ found := true, regOk := true, registered := false, hostRegistered := false },
                  { found := false, regOk := true, registered := false,
                    hostRegistered := false }] }).2.tps, tp.hostRegistered = false :=
  rtsl_c6 _ (by decide) (by decide)
    ⟨{ found := false, regOk := true, registered := false, hostRegistered := false },
      by decide, Or.inl rfl⟩

/-! ## C2: monotonicity of the emitted max records -/

lemma maxPoidVals_append (l1 l2 : List Record) :
    maxPoidVals (l1 ++ l2) = maxPoidVals l1 ++ maxPoidVals l2 :=
  List.filterMap_append _ _ _

lemma poid_duration_max (env : Env) (v : RtslVariables) :
    MaxEvolves (· ≤ ·) v.poid.max (maxPoidVals (poid_duration env v).2)
      (poid_duration env v).1.poid.max ∧
    maxPaieVals (poid_duration env v).2 = [] ∧
    maxPsdVals (poid_duration env v).2 = [] ∧
    maxDstVals (poid_duration env v).2 = [] ∧
    (poid_duration env v).1.paie.max = v.paie.max ∧
    (poid_duration env v).1.psd.max = v.psd.max ∧
    (poid_duration env v).1.dst.max = v.dst.max := by
  rw [poid_duration]
  dsimp only
  split_ifs with h1 h2 h3
  · exact ⟨Or.inl ⟨rfl, rfl⟩, rfl, rfl, rfl, rfl, rfl, rfl⟩
  · exact ⟨Or.inl ⟨rfl, rfl⟩, rfl, rfl, rfl, rfl, rfl, rfl⟩
  · exact ⟨Or.inl ⟨rfl, rfl⟩, rfl, rfl, rfl, rfl, rfl, rfl⟩
  · refine ⟨Or.inr ⟨_, rfl, Nat.le_of_not_lt h3, rfl⟩, rfl, rfl, rfl, rfl, rfl, rfl⟩

lemma paie_duration_max (env : Env) (v : RtslVariables) :
    MaxEvolves (· ≤ ·) v.paie.max (maxPaieVals (paie_duration env v).2)
      (paie_duration env v).1.paie.max ∧
    maxPoidVals (paie_duration env v).2 = [] ∧
    maxPsdVals (paie_duration env v).2 = [] ∧
    maxDstVals (paie_duration env v).2 = [] ∧
    (paie_duration env v).1.poid.max = v.poid.max ∧
    (paie_duration env v).1.psd.max = v.psd.max ∧
    (paie_duration env v).1.dst.max = v.dst.max := by
  rw [paie_duration]
  dsimp only
  split_ifs with h1 h2 h3
  · exact ⟨Or.inl ⟨rfl, rfl⟩, rfl, rfl, rfl, rfl, rfl, rfl⟩
  · exact ⟨Or.inl ⟨rfl, rfl⟩, rfl, rfl, rfl, rfl, rfl, rfl⟩
  · exact ⟨Or.inl ⟨rfl, rfl⟩, rfl, rfl, rfl, rfl, rfl, rfl⟩
  · refine ⟨Or.inr ⟨_, rfl, Nat.le_of_not_lt h3, rfl⟩, rfl, rfl, rfl, rfl, rfl, rfl⟩

lemma hpes_psd_max (env : Env) (v : RtslVariables) :
    MaxEvolves (· < ·) v.psd.max (maxPsdVals (handle_preempt_enable_sched env v).2)
      (handle_preempt_enable_sched env v).1.psd.max := by
  rw [handle_preempt_enable_sched]
  dsimp only
  split_ifs <;>
    first
    | exact Or.inl ⟨rfl, rfl⟩
    | { refine Or.inr ⟨_, rfl, ?_, rfl⟩; assumption }

lemma hpes_dst_max (env : Env) (v : RtslVariables) :
    MaxEvolves (· < ·) v.dst.max (maxDstVals (handle_preempt_enable_sched env v).2)
      (handle_preempt_enable_sched env v).1.dst.max := by
  rw [handle_preempt_enable_sched]
  dsimp only
  split_ifs <;>
    first
    | exact Or.inl ⟨rfl, rfl⟩
    | { refine Or.inr ⟨_, rfl, ?_, rfl⟩; assumption }

lemma hpes_poid_paie_max (env : Env) (v : RtslVariables) :
    maxPoidVals (handle_preempt_enable_sched env v).2 = [] ∧
    maxPaieVals (handle_preempt_enable_sched env v).2 = [] ∧
    (handle_preempt_enable_sched env v).1.poid.max = v.poid.max ∧
    (handle_preempt_enable_sched env v).1.paie.max = v.paie.max := by
  rw [handle_preempt_enable_sched]
  dsimp only
  split_ifs <;> exact ⟨rfl, rfl, rfl, rfl⟩

lemma irq_occurence_max (env : Env) (v : RtslVariables) :
    maxPoidVals (irq_occurence env v).2 = [] ∧
    maxPaieVals (irq_occurence env v).2 = [] ∧
    maxPsdVals (irq_occurence env v).2 = [] ∧
    maxDstVals (irq_occurence env v).2 = [] ∧
    (irq_occurence env v).1.poid.max = v.poid.max ∧
    (irq_occurence env v).1.paie.max = v.paie.max ∧
    (irq_occurence env v).1.psd.max = v.psd.max ∧
    (irq_occurence env v).1.dst.max = v.dst.max := by
  refine ⟨rfl, rfl, rfl, rfl, ?_, ?_, ?_, ?_⟩ <;>
    { rw [irq_occurence]; dsimp only; split_ifs <;> rfl }

lemma rtsl_initialized_state4 (env : Env) (v : RtslVariables) :
    (rtsl_initialized env v).2.poid = v.poid ∧ (rtsl_initialized env v).2.paie = v.paie ∧
    (rtsl_initialized env v).2.psd = v.psd ∧ (rtsl_initialized env v).2.dst = v.dst := by
  rw [rtsl_initialized]
  split_ifs <;> exact ⟨rfl, rfl, rfl, rfl⟩

lemma hien_max (env : Env) (v : RtslVariables) :
    MaxEvolves (· ≤ ·) v.poid.max (maxPoidVals (handle_irq_enable_normal env v).2)
      (handle_irq_enable_normal env v).1.poid.max ∧
    MaxEvolves (· ≤ ·) v.paie.max (maxPaieVals (handle_irq_enable_normal env v).2)
      (handle_irq_enable_normal env v).1.paie.max ∧
    MaxEvolves (· < ·) v.psd.max (maxPsdVals (handle_irq_enable_normal env v).2)
      (handle_irq_enable_normal env v).1.psd.max ∧
    MaxEvolves (· < ·) v.dst.max (maxDstVals (handle_irq_enable_normal env v).2)
      (handle_irq_enable_normal env v).1.dst.max := by
  obtain ⟨hme, hpa, hps, hds, hpam, hpsm, hdsm⟩ :=
    poid_duration_max env { v with poid := { v.poid with id := false } }
  rw [handle_irq_enable_normal]
  dsimp only
  split_ifs with h1 h2 h3
  · exact ⟨Or.inl ⟨rfl, rfl⟩, Or.inl ⟨rfl, rfl⟩, Or.inl ⟨rfl, rfl⟩, Or.inl ⟨rfl, rfl⟩⟩
  · exact ⟨Or.inl ⟨rfl, rfl⟩, Or.inl ⟨rfl, rfl⟩, Or.inl ⟨rfl, rfl⟩, Or.inl ⟨rfl, rfl⟩⟩
  · refine ⟨?_, ?_, ?_, ?_⟩
    · dsimp only at hme ⊢
      exact hme
    · dsimp only at hpa hpam ⊢
      exact Or.inl ⟨hpa, hpam⟩
    · dsimp only at hps hpsm ⊢
      exact Or.inl ⟨hps, hpsm⟩
    · dsimp only at hds hdsm ⊢
      exact Or.inl ⟨hds, hdsm⟩
  · refine ⟨?_, ?_, ?_, ?_⟩
    · dsimp only at hme ⊢
      exact hme
    · dsimp only at hpa hpam ⊢
      exact Or.inl ⟨hpa, hpam⟩
    · dsimp only at hps hpsm ⊢
      exact Or.inl ⟨hps, hpsm⟩
    · dsimp only at hds hdsm ⊢
      exact Or.inl ⟨hds, hdsm⟩

lemma hpen_max (env : Env) (v : RtslVariables) :
    MaxEvolves (· ≤ ·) v.poid.max (maxPoidVals (handle_preempt_enable_nosched env v).2)
      (handle_preempt_enable_nosched env v).1.poid.max ∧
    MaxEvolves (· ≤ ·) v.paie.max (maxPaieVals (handle_preempt_enable_nosched env v).2)
      (handle_preempt_enable_nosched env v).1.paie.max ∧
    MaxEvolves (· < ·) v.psd.max (maxPsdVals (handle_preempt_enable_nosched env v).2)
      (handle_preempt_enable_nosched env v).1.psd.max ∧
    MaxEvolves (· < ·) v.dst.max (maxDstVals (handle_preempt_enable_nosched env v).2)
      (handle_preempt_enable_nosched env v).1.dst.max := by
  obtain ⟨hme, hpa, hps, hds, hpam, hpsm, hdsm⟩ :=
    poid_duration_max env { v with poid := { v.poid with pd := false } }
  rw [handle_preempt_enable_nosched]
  dsimp only
  split_ifs with h1 h2 h3 h4
  · exact ⟨Or.inl ⟨rfl, rfl⟩, Or.inl ⟨rfl, rfl⟩, Or.inl ⟨rfl, rfl⟩, Or.inl ⟨rfl, rfl⟩⟩
  · exact ⟨Or.inl ⟨rfl, rfl⟩, Or.inl ⟨rfl, rfl⟩, Or.inl ⟨rfl, rfl⟩, Or.inl ⟨rfl, rfl⟩⟩
  · exact ⟨Or.inl ⟨rfl, rfl⟩, Or.inl ⟨rfl, rfl⟩, Or.inl ⟨rfl, rfl⟩, Or.inl ⟨rfl, rfl⟩⟩
  · refine ⟨?_, ?_, ?_, ?_⟩
    · dsimp only at hme ⊢
      exact hme
    · dsimp only at hpa hpam ⊢
      exact Or.inl ⟨hpa, hpam⟩
    · dsimp only at hps hpsm ⊢
      exact Or.inl ⟨hps, hpsm⟩
    · dsimp only at hds hdsm ⊢
      exact Or.inl ⟨hds, hdsm⟩
  · refine ⟨?_, ?_, ?_, ?_⟩
    · dsimp only at hme ⊢
      exact hme
    · dsimp only at hpa hpam ⊢
      exact Or.inl ⟨hpa, hpam⟩
    · dsimp only at hps hpsm ⊢
      exact Or.inl ⟨hps, hpsm⟩
    · dsimp only at hds hdsm ⊢
      exact Or.inl ⟨hds, hdsm⟩

lemma hpds_max (env : Env) (v : RtslVariables) :
    MaxEvolves (· ≤ ·) v.poid.max (maxPoidVals (handle_preempt_disable_sched env v).2)
      (handle_preempt_disable_sched env v).1.poid.max ∧
    MaxEvolves (· ≤ ·) v.paie.max (maxPaieVals (handle_preempt_disable_sched env v).2)
      (handle_preempt_disable_sched env v).1.paie.max ∧
    MaxEvolves (· < ·) v.psd.max (maxPsdVals (handle_preempt_disable_sched env v).2)
      (handle_preempt_disable_sched env v).1.psd.max ∧
    MaxEvolves (· < ·) v.dst.max (maxDstVals (handle_preempt_disable_sched env v).2)
      (handle_preempt_disable_sched env v).1.dst.max := by
  obtain ⟨hg1, hg2, hg3, hg4⟩ := rtsl_initialized_state4 env v
  obtain ⟨pme, ppo, pps, pds, ppom, ppsm, pdsm⟩ :=
    paie_duration_max env (rtsl_initialized env v).2
  have hg1m := congrArg Poid.max hg1
  have hg2m := congrArg Paie.max hg2
  have hg3m := congrArg Psd.max hg3
  have hg4m := congrArg Dst.max hg4
  rw [hg2m] at pme
  rw [handle_preempt_disable_sched]
  dsimp only
  split_ifs with h1 h2
  · exact ⟨Or.inl ⟨rfl, hg1m⟩, Or.inl ⟨rfl, hg2m⟩, Or.inl ⟨rfl, hg3m⟩, Or.inl ⟨rfl, hg4m⟩⟩
  · refine ⟨?_, ?_, ?_, ?_⟩
    · dsimp only at ppo ppom ⊢
      exact Or.inl ⟨ppo, ppom.trans hg1m⟩
    · dsimp only at pme ⊢
      exact pme
    · dsimp only at pps ppsm ⊢
      exact Or.inl ⟨pps, ppsm.trans hg3m⟩
    · dsimp only at pds pdsm ⊢
      exact Or.inl ⟨pds, pdsm.trans hg4m⟩
  · exact ⟨Or.inl ⟨rfl, hg1m⟩, Or.inl ⟨rfl, hg2m⟩, Or.inl ⟨rfl, hg3m⟩, Or.inl ⟨rfl, hg4m⟩⟩

lemma step_max_evolution (env : Env) (v : RtslVariables) (e : Event) :
    MaxEvolves (· ≤ ·) v.poid.max (maxPoidVals (step env v e).2) (step env v e).1.poid.max ∧
    MaxEvolves (· ≤ ·) v.paie.max (maxPaieVals (step env v e).2) (step env v e).1.paie.max ∧
    MaxEvolves (· < ·) v.psd.max (maxPsdVals (step env v e).2) (step env v e).1.psd.max ∧
    MaxEvolves (· < ·) v.dst.max (maxDstVals (step env v e).2) (step env v e).1.dst.max := by
  cases e with
  | irq_disable b =>
    by_cases hr : v.running = false
    · simp only [step, hr, if_true]
      exact ⟨Or.inl ⟨rfl, rfl⟩, Or.inl ⟨rfl, rfl⟩, Or.inl ⟨rfl, rfl⟩, Or.inl ⟨rfl, rfl⟩⟩
    · cases b
      · have hstep : step env v (Event.irq_disable false) =
            (handle_irq_disable_normal env v, []) := by simp [step, hr]
        rw [hstep]
        refine ⟨?_, ?_, ?_, ?_⟩ <;>
          { refine Or.inl ⟨rfl, ?_⟩
            rw [handle_irq_disable_normal]
            dsimp only
            split_ifs <;> rfl }
      · have hstep : step env v (Event.irq_disable true) =
            (handle_irq_disable_irq env v, []) := by simp [step, hr]
        rw [hstep]
        exact ⟨Or.inl ⟨rfl, rfl⟩, Or.inl ⟨rfl, rfl⟩, Or.inl ⟨rfl, rfl⟩, Or.inl ⟨rfl, rfl⟩⟩
  | irq_enable b =>
    by_cases hr : v.running = false
    · simp only [step, hr, if_true]
      exact ⟨Or.inl ⟨rfl, rfl⟩, Or.inl ⟨rfl, rfl⟩, Or.inl ⟨rfl, rfl⟩, Or.inl ⟨rfl, rfl⟩⟩
    · cases b
      · have hstep : step env v (Event.irq_enable false) =
            handle_irq_enable_normal env v := by simp [step, hr]
        rw [hstep]
        exact hien_max env v
      · have hstep : step env v (Event.irq_enable true) = irq_occurence env v := by
          simp [step, handle_irq_enable_irq, hr]
        obtain ⟨e1, e2, e3, e4, m1, m2, m3, m4⟩ := irq_occurence_max env v
        rw [hstep]
        exact ⟨Or.inl ⟨e1, m1⟩, Or.inl ⟨e2, m2⟩, Or.inl ⟨e3, m3⟩, Or.inl ⟨e4, m4⟩⟩
  | preempt_disable b =>
    cases b
    · have hstep : step env v (Event.preempt_disable false) =
          (handle_preempt_disable_nosched env v, []) := rfl
      rw [hstep]
      refine ⟨?_, ?_, ?_, ?_⟩ <;>
        { refine Or.inl ⟨rfl, ?_⟩
          rw [handle_preempt_disable_nosched]
          dsimp only
          split_ifs <;> rfl }
    · exact hpds_max env v
  | preempt_enable b =>
    cases b
    · exact hpen_max env v
    · obtain ⟨e1, e2, m1, m2⟩ := hpes_poid_paie_max env v
      exact ⟨Or.inl ⟨e1, m1⟩, Or.inl ⟨e2, m2⟩, hpes_psd_max env v, hpes_dst_max env v⟩
  | nmi_entry =>
    have hstep : step env v Event.nmi_entry = (handle_nmi_entry env v, []) := rfl
    rw [hstep]
    refine ⟨?_, ?_, ?_, ?_⟩ <;>
      { refine Or.inl ⟨rfl, ?_⟩
        rw [handle_nmi_entry]
        dsimp only
        split_ifs <;> rfl }
  | nmi_exit =>
    have hstep : step env v Event.nmi_exit = handle_nmi_exit env v := rfl
    rw [hstep]
    refine ⟨?_, ?_, ?_, ?_⟩ <;>
      { rw [handle_nmi_exit]
        dsimp only
        split_ifs <;> exact Or.inl ⟨rfl, rfl⟩ }
  | irq_vector_entry vec =>
    have hstep : step env v (Event.irq_vector_entry vec) =
        (handle_irq_vector_entry vec v, []) := rfl
    rw [hstep]
    refine ⟨?_, ?_, ?_, ?_⟩ <;>
      { refine Or.inl ⟨rfl, ?_⟩
        rw [handle_irq_vector_entry]
        dsimp only
        split_ifs <;> rfl }
  | irq_handler_entry nr =>
    have hstep : step env v (Event.irq_handler_entry nr) = (handle_irq_entry nr v, []) := rfl
    rw [hstep]
    refine ⟨?_, ?_, ?_, ?_⟩ <;>
      { refine Or.inl ⟨rfl, ?_⟩
        rw [handle_irq_entry]
        dsimp only
        split_ifs <;> rfl }

lemma runTrace_max_pairwise
    (f : RtslVariables → Nat) (g : List Record → List Nat) (r : Nat → Nat → Prop)
    (hg : ∀ l1 l2, g (l1 ++ l2) = g l1 ++ g l2) (hg0 : g [] = [])
    (hstep : ∀ env v e, MaxEvolves r (f v) (g (step env v e).2) (f (step env v e).1))
    (hr1 : ∀ m d, r m d → m ≤ d)
    (hr2 : ∀ x m d, x ≤ m → r m d → r x d) :
    ∀ (tr : List (Env × Event)) (v : RtslVariables),
      List.Pairwise r (g (runTrace v tr).2) ∧
      (∀ b ∈ g (runTrace v tr).2, r (f v) b) ∧
      f v ≤ f (runTrace v tr).1 := by
  intro tr
  induction tr with
  | nil =>
    intro v
    simp [runTrace, hg0]
  | cons ee rest ih =>
    intro v
    rw [runTrace]
    dsimp only
    obtain ⟨ihp, ihm, ihf⟩ := ih (step ee.1 v ee.2).1
    rcases hstep ee.1 v ee.2 with ⟨hnil, hsame⟩ | ⟨d, hds, hrd, hfd⟩
    · rw [hg, hnil, List.nil_append]
      refine ⟨ihp, ?_, ?_⟩
      · intro b hb
        have := ihm b hb
        rwa [hsame] at this
      · rw [hsame] at ihf
        exact ihf
    · rw [hg, hds]
      have hfd2 : f v ≤ d := hr1 _ _ hrd
      have hcons : (d :: g (runTrace (step ee.1 v ee.2).1 rest).2) =
          [d] ++ g (runTrace (step ee.1 v ee.2).1 rest).2 := rfl
      refine ⟨?_, ?_, ?_⟩
      · rw [← hcons]
        refine List.Pairwise.cons ?_ ihp
        intro b hb
        have := ihm b hb
        rwa [hfd] at this
      · intro b hb
        rw [← hcons] at hb
        rcases List.mem_cons.mp hb with rfl | hb2
        · exact hrd
        · have := ihm b hb2
          rw [hfd] at this
          exact hr2 _ _ _ hfd2 this
      · rw [hfd] at ihf
        exact le_trans hfd2 ihf

lemma maxPaieVals_append (l1 l2 : List Record) :
    maxPaieVals (l1 ++ l2) = maxPaieVals l1 ++ maxPaieVals l2 :=
  List.filterMap_append _ _ _

lemma maxPsdVals_append (l1 l2 : List Record) :
    maxPsdVals (l1 ++ l2) = maxPsdVals l1 ++ maxPsdVals l2 :=
  List.filterMap_append _ _ _

lemma maxDstVals_append (l1 l2 : List Record) :
    maxDstVals (l1 ++ l2) = maxDstVals l1 ++ maxDstVals l2 :=
  List.filterMap_append _ _ _

theorem rtsl_c2_amended (v : RtslVariables) (tr : List (Env × Event)) :
    List.Pairwise (· < ·) (maxPsdVals (runTrace v tr).2) ∧
    List.Pairwise (· < ·) (maxDstVals (runTrace v tr).2) ∧
    List.Pairwise (· ≤ ·) (maxPoidVals (runTrace v tr).2) ∧
    List.Pairwise (· ≤ ·) (maxPaieVals (runTrace v tr).2) := by
  refine ⟨?_, ?_, ?_, ?_⟩
  · exact (runTrace_max_pairwise (fun w => w.psd.max) maxPsdVals (· < ·)
      maxPsdVals_append rfl (fun env w e => (step_max_evolution env w e).2.2.1)
      (fun m d h => le_of_lt h) (fun x m d h1 h2 => lt_of_le_of_lt h1 h2) tr v).1
  · exact (runTrace_max_pairwise (fun w => w.dst.max) maxDstVals (· < ·)
      maxDstVals_append rfl (fun env w e => (step_max_evolution env w e).2.2.2)
      (fun m d h => le_of_lt h) (fun x m d h1 h2 => lt_of_le_of_lt h1 h2) tr v).1
  · exact (runTrace_max_pairwise (fun w => w.poid.max) maxPoidVals (· ≤ ·)
      maxPoidVals_append rfl (fun env w e => (step_max_evolution env w e).1)
      (fun m d h => h) (fun x m d h1 h2 => le_trans h1 h2) tr v).1
  · exact (runTrace_max_pairwise (fun w => w.paie.max) maxPaieVals (· ≤ ·)
      maxPaieVals_append rfl (fun env w e => (step_max_evolution env w e).2.1)
      (fun m d h => h) (fun x m d h1 h2 => le_trans h1 h2) tr v).1

theorem rtsl_c2_counterexample :
    maxPoidVals (runTrace rtslZero c2Trace).2 = [10, 10] ∧
    ¬ List.Pairwise (· < ·) (maxPoidVals (runTrace rtslZero c2Trace).2) := by
  constructor
  · rfl
  · decide

/-! ## C3: the idle filter for POID and PAIE -/

lemma poid_duration_idle (env : Env) (v : RtslVariables) (h : env.pid = 0) :
    (poid_duration env v).2 = [] ∧
    (poid_duration env v).1.poid.max = v.poid.max ∧
    (poid_duration env v).1.paie = v.paie := by
  rw [poid_duration]
  split_ifs with h1
  · exact ⟨rfl, rfl, rfl⟩
  · simp [h]

lemma paie_duration_idle (env : Env) (v : RtslVariables) (h : env.pid = 0) :
    (paie_duration env v).2 = [] ∧
    (paie_duration env v).1.paie.max = v.paie.max ∧
    (paie_duration env v).1.poid = v.poid := by
  rw [paie_duration]
  split_ifs with h1
  · exact ⟨rfl, rfl, rfl⟩
  · simp [h]

lemma rtsl_initialized_state (env : Env) (v : RtslVariables) :
    (rtsl_initialized env v).2.poid = v.poid ∧ (rtsl_initialized env v).2.paie = v.paie := by
  rw [rtsl_initialized]
  split_ifs <;> exact ⟨rfl, rfl⟩

lemma irq_occurence_c3 (env : Env) (v : RtslVariables) :
    (irq_occurence env v).2 =
      [Record.irq_execution v.irq.vector v.irq.arrival_time
        (u64 ((env.now : Int) - (v.irq.delta_start : Int)))] ∧
    (irq_occurence env v).1.poid.max = v.poid.max ∧
    (irq_occurence env v).1.paie.max = v.paie.max := by
  refine ⟨rfl, ?_, ?_⟩ <;> { rw [irq_occurence]; dsimp only; split_ifs <;> rfl }

lemma handle_irq_enable_normal_c3 (env : Env) (v : RtslVariables) (h : env.pid = 0) :
    (handle_irq_enable_normal env v).2 = [] ∧
    (handle_irq_enable_normal env v).1.poid.max = v.poid.max ∧
    (handle_irq_enable_normal env v).1.paie.max = v.paie.max := by
  obtain ⟨hrec, hmax, hpaie⟩ :=
    poid_duration_idle env { v with poid := { v.poid with id := false } } h
  have hpm := congrArg Paie.max hpaie
  rw [handle_irq_enable_normal]
  dsimp only
  split_ifs with h1 h2 h3
  · exact ⟨rfl, rfl, rfl⟩
  · exact ⟨rfl, rfl, rfl⟩
  · refine ⟨hrec, hmax, ?_⟩
    dsimp only at hpm ⊢
    exact hpm
  · exact ⟨hrec, hmax, hpm⟩

lemma handle_preempt_enable_nosched_c3 (env : Env) (v : RtslVariables) (h : env.pid = 0) :
    (handle_preempt_enable_nosched env v).2 = [] ∧
    (handle_preempt_enable_nosched env v).1.poid.max = v.poid.max ∧
    (handle_preempt_enable_nosched env v).1.paie.max = v.paie.max := by
  obtain ⟨hrec, hmax, hpaie⟩ :=
    poid_duration_idle env { v with poid := { v.poid with pd := false } } h
  have hpm := congrArg Paie.max hpaie
  rw [handle_preempt_enable_nosched]
  dsimp only
  split_ifs with h1 h2 h3 h4
  · exact ⟨rfl, rfl, rfl⟩
  · exact ⟨rfl, rfl, rfl⟩
  · exact ⟨rfl, rfl, rfl⟩
  · refine ⟨hrec, hmax, ?_⟩
    dsimp only at hpm ⊢
    exact hpm
  · exact ⟨hrec, hmax, hpm⟩

lemma handle_preempt_disable_sched_c3 (env : Env) (v : RtslVariables) (h : env.pid = 0) :
    (handle_preempt_disable_sched env v).2 = [] ∧
    (handle_preempt_disable_sched env v).1.poid.max = v.poid.max ∧
    (handle_preempt_disable_sched env v).1.paie.max = v.paie.max := by
  obtain ⟨hpoidg, hpaieg⟩ := rtsl_initialized_state env v
  obtain ⟨hrec, hmax, hpoid⟩ := paie_duration_idle env (rtsl_initialized env v).2 h
  have hgp := congrArg Poid.max hpoidg
  have hga := congrArg Paie.max hpaieg
  have hpp := (congrArg Poid.max hpoid).trans hgp
  have hpa := hmax.trans hga
  rw [handle_preempt_disable_sched]
  dsimp only
  split_ifs with h1 h2
  · exact ⟨rfl, hgp, hga⟩
  · refine ⟨hrec, ?_, ?_⟩
    · dsimp only at hpp ⊢
      exact hpp
    · dsimp only at hpa ⊢
      exact hpa
  · exact ⟨rfl, hgp, hga⟩

lemma handle_preempt_enable_sched_c3 (env : Env) (v : RtslVariables) :
    ((∀ d, Record.poid d ∉ (handle_preempt_enable_sched env v).2) ∧
      (∀ d, Record.max_poid d ∉ (handle_preempt_enable_sched env v).2) ∧
      (∀ d, Record.paie d ∉ (handle_preempt_enable_sched env v).2) ∧
      (∀ d, Record.max_paie d ∉ (handle_preempt_enable_sched env v).2)) ∧
    (handle_preempt_enable_sched env v).1.poid.max = v.poid.max ∧
    (handle_preempt_enable_sched env v).1.paie.max = v.paie.max := by
  refine ⟨⟨?_, ?_, ?_, ?_⟩, ?_, ?_⟩ <;>
    { first
      | · intro d
          rw [handle_preempt_enable_sched]
          dsimp only
          split_ifs <;> simp
      | · rw [handle_preempt_enable_sched]
          dsimp only
          split_ifs <;> rfl }

/-- C3: when the current task is the idle sentinel 0, no event emits a
`poid`, `max_poid`, `paie` or `max_paie` record, and the stored POID and
PAIE maxima are left unchanged. -/
theorem rtsl_c3 (env : Env) (v : RtslVariables) (e : Event) (h : env.pid = 0) :
    (∀ d, Record.poid d ∉ (step env v e).2) ∧
    (∀ d, Record.max_poid d ∉ (step env v e).2) ∧
    (∀ d, Record.paie d ∉ (step env v e).2) ∧
    (∀ d, Record.max_paie d ∉ (step env v e).2) ∧
    (step env v e).1.poid.max = v.poid.max ∧
    (step env v e).1.paie.max = v.paie.max := by
  cases e with
  | irq_disable b =>
    by_cases hr : v.running = false
    · simp [step, hr]
    · cases b
      · have hstep : step env v (Event.irq_disable false) =
            (handle_irq_disable_normal env v, []) := by
          simp [step, hr]
        rw [hstep]
        refine ⟨by simp, by simp, by simp, by simp, ?_, ?_⟩ <;>
          { rw [handle_irq_disable_normal]; dsimp only; split_ifs <;> rfl }
      · have hstep : step env v (Event.irq_disable true) =
            (handle_irq_disable_irq env v, []) := by
          simp [step, hr]
        rw [hstep]
        exact ⟨by simp, by simp, by simp, by simp, rfl, rfl⟩
  | irq_enable b =>
    by_cases hr : v.running = false
    · simp [step, hr]
    · cases b
      · have hstep : step env v (Event.irq_enable false) =
            handle_irq_enable_normal env v := by
          simp [step, hr]
        obtain ⟨hrec, hmax, hpaie⟩ := handle_irq_enable_normal_c3 env v h
        rw [hstep, hrec] at *
        exact ⟨by simp, by simp, by simp, by simp, hmax, hpaie⟩
      · have hstep : step env v (Event.irq_enable true) = irq_occurence env v := by
          simp [step, handle_irq_enable_irq, hr]
        obtain ⟨hrec, hmax, hpaie⟩ := irq_occurence_c3 env v
        rw [hstep, hrec] at *
        exact ⟨by simp, by simp, by simp, by simp, hmax, hpaie⟩
  | preempt_disable b =>
    cases b
    · have hstep : step env v (Event.preempt_disable false) =
          (handle_preempt_disable_nosched env v, []) := rfl
      rw [hstep]
      refine ⟨by simp, by simp, by simp, by simp, ?_, ?_⟩ <;>
        { rw [handle_preempt_disable_nosched]; dsimp only; split_ifs <;> rfl }
    · have hstep : step env v (Event.preempt_disable true) =
          handle_preempt_disable_sched env v := rfl
      obtain ⟨hrec, hmax, hpaie⟩ := handle_preempt_disable_sched_c3 env v h
      rw [hstep, hrec] at *
      exact ⟨by simp, by simp, by simp, by simp, hmax, hpaie⟩
  | preempt_enable b =>
    cases b
    · have hstep : step env v (Event.preempt_enable false) =
          handle_preempt_enable_nosched env v := rfl
      obtain ⟨hrec, hmax, hpaie⟩ := handle_preempt_enable_nosched_c3 env v h
      rw [hstep, hrec] at *
      exact ⟨by simp, by simp, by simp, by simp, hmax, hpaie⟩
    · have hstep : step env v (Event.preempt_enable true) =
          handle_preempt_enable_sched env v := rfl
      obtain ⟨⟨m1, m2, m3, m4⟩, hmax, hpaie⟩ := handle_preempt_enable_sched_c3 env v
      rw [hstep]
      exact ⟨m1, m2, m3, m4, hmax, hpaie⟩
  | nmi_entry =>
    have hstep : step env v Event.nmi_entry = (handle_nmi_entry env v, []) := rfl
    rw [hstep]
    refine ⟨by simp, by simp, by simp, by simp, ?_, ?_⟩ <;>
      { rw [handle_nmi_entry]; dsimp only; split_ifs <;> rfl }
  | nmi_exit =>
    have hstep : step env v Event.nmi_exit = handle_nmi_exit env v := rfl
    rw [hstep]
    refine ⟨?_, ?_, ?_, ?_, ?_, ?_⟩ <;>
      { first
        | · intro d
            rw [handle_nmi_exit]
            dsimp only
            split_ifs <;> simp
        | · rw [handle_nmi_exit]
            dsimp only
            split_ifs <;> rfl }
  | irq_vector_entry vec =>
    have hstep : step env v (Event.irq_vector_entry vec) =
        (handle_irq_vector_entry vec v, []) := rfl
    rw [hstep]
    refine ⟨by simp, by simp, by simp, by simp, ?_, ?_⟩ <;>
      { rw [handle_irq_vector_entry]; dsimp only; split_ifs <;> rfl }
  | irq_handler_entry nr =>
    have hstep : step env v (Event.irq_handler_entry nr) =
        (handle_irq_entry nr v, []) := rfl
    rw [hstep]
    refine ⟨by simp, by simp, by simp, by simp, ?_, ?_⟩ <;>
      { rw [handle_irq_entry]; dsimp only; split_ifs <;> rfl }

/-- C3 witness. -/
theorem rtsl_c3_witness :
    (∀ d, Record.poid d ∉
      (step (mkEnv 20 0) { rtslZero with running := true, poid := { pd := true, id := false, delta_start := 10, max := 0 } } (Event.preempt_enable false)).2) ∧
    (∀ d, Record.max_poid d ∉
      (step (mkEnv 20 0) { rtslZero with running := true, poid := { pd := true, id := false, delta_start := 10, max := 0 } } (Event.preempt_enable false)).2) ∧
    (∀ d, Record.paie d ∉
      (step (mkEnv 20 0) { rtslZero with running := true, poid := { pd := true, id := false, delta_start := 10, max := 0 } } (Event.preempt_enable false)).2) ∧
    (∀ d, Record.max_paie d ∉
      (step (mkEnv 20 0) { rtslZero with running := true, poid := { pd := true, id := false, delta_start := 10, max := 0 } } (Event.preempt_enable false)).2) ∧
    (step (mkEnv 20 0) { rtslZero with running := true, poid := { pd := true, id := false, delta_start := 10, max := 0 } } (Event.preempt_enable false)).1.poid.max =
      ({ rtslZero with running := true, poid := { pd := true, id := false, delta_start := 10, max := 0 } } : RtslVariables).poid.max ∧
    (step (mkEnv 20 0) { rtslZero with running := true, poid := { pd := true, id := false, delta_start := 10, max := 0 } } (Event.preempt_enable false)).1.paie.max =
      ({ rtslZero with running := true, poid := { pd := true, id := false, delta_start := 10, max := 0 } } : RtslVariables).paie.max :=
  rtsl_c3 (mkEnv 20 0)
    { rtslZero with running := true, poid := { pd := true, id := false, delta_start := 10, max := 0 } }
    (Event.preempt_enable false) (by decide)

/-! ## C8: the running flag and the initial condition -/

/-- C8: a CPU's `running` flag flips from false to true only inside the
schedule-path preempt-disable handler, and only when the global enabled
flag is true and interrupts are enabled on the CPU; under any other
condition that handler leaves the state untouched and emits nothing. -/
theorem rtsl_c8 (env : Env) (v : RtslVariables) (e : Event) (h : v.running = false) :
    ((step env v e).1.running = true →
      e = Event.preempt_disable true ∧ env.enabled = true ∧ env.irqsDisabled = false) ∧
    ((env.enabled = false ∨ env.irqsDisabled = true) →
      step env v (Event.preempt_disable true) = (v, [])) := by
  constructor
  · intro hrun
    cases e with
    | irq_disable b => simp [step, h] at hrun
    | irq_enable b => simp [step, h] at hrun
    | preempt_disable b =>
      cases b
      · simp [step, handle_preempt_disable_nosched, h] at hrun
      · by_cases hen : env.enabled = false
        · simp [step, handle_preempt_disable_sched, rtsl_initialized, h, hen] at hrun
        · by_cases hirq : env.irqsDisabled = true
          · simp [step, handle_preempt_disable_sched, rtsl_initialized, h, hen, hirq] at hrun
          · simp only [Bool.not_eq_false] at hen
            simp only [Bool.not_eq_true] at hirq
            exact ⟨rfl, hen, hirq⟩
    | preempt_enable b =>
      cases b
      · simp [step, handle_preempt_enable_nosched, h] at hrun
      · simp [step, handle_preempt_enable_sched, h] at hrun
    | nmi_entry => simp [step, handle_nmi_entry, h] at hrun
    | nmi_exit => simp [step, handle_nmi_exit, h] at hrun
    | irq_vector_entry vec => simp [step, handle_irq_vector_entry, h] at hrun
    | irq_handler_entry nr => simp [step, handle_irq_entry, h] at hrun
  · intro hcond
    rcases hcond with hen | hirq
    · simp [step, handle_preempt_disable_sched, rtsl_initialized, h, hen]
    · by_cases hen : env.enabled = false
      · simp [step, handle_preempt_disable_sched, rtsl_initialized, h, hen]
      · simp [step, handle_preempt_disable_sched, rtsl_initialized, h, hen, hirq]

/-- C8 witness. -/
theorem rtsl_c8_witness :
    ((step (mkEnv 10 5) rtslZero (Event.preempt_disable true)).1.running = true →
      Event.preempt_disable true = Event.preempt_disable true ∧
        (mkEnv 10 5).enabled = true ∧ (mkEnv 10 5).irqsDisabled = false) ∧
    (((mkEnv 10 5).enabled = false ∨ (mkEnv 10 5).irqsDisabled = true) →
      step (mkEnv 10 5) rtslZero (Event.preempt_disable true) = (rtslZero, [])) :=
  rtsl_c8 (mkEnv 10 5) rtslZero (Event.preempt_disable true) (by decide)

/-! ## C9 and C10: PSD/DST closure in the schedule-path preempt-enable -/

/-- C9: the idle filter does not extend to PSD and DST: the schedule-path
preempt-enable handler emits the `psd` record (and the `dst` record when
DST is open), and the corresponding max records when the duration exceeds
the stored max, even when the current task is the idle sentinel 0. -/
theorem rtsl_c9 (env : Env) (v : RtslVariables) (hrun : v.running = true)
    (_hidle : env.pid = 0) :
    Record.psd (u64 ((env.now : Int) - (v.psd.delta_start : Int)))
        ∈ (step env v (Event.preempt_enable true)).2 ∧
    (u64 ((env.now : Int) - (v.psd.delta_start : Int)) > v.psd.max →
      Record.max_psd (u64 ((env.now : Int) - (v.psd.delta_start : Int)))
        ∈ (step env v (Event.preempt_enable true)).2) ∧
    (v.dst.delta_start ≠ 0 →
      Record.dst (u64 ((env.now : Int) - (v.dst.delta_start : Int)))
        ∈ (step env v (Event.preempt_enable true)).2) ∧
    (v.dst.delta_start ≠ 0 →
      u64 ((env.now : Int) - (v.dst.delta_start : Int)) > v.dst.max →
      Record.max_dst (u64 ((env.now : Int) - (v.dst.delta_start : Int)))
        ∈ (step env v (Event.preempt_enable true)).2) := by
  refine ⟨?_, ?_, ?_, ?_⟩ <;>
    simp only [step, handle_preempt_enable_sched, get_int_safe_duration, hrun,
      Bool.true_eq_false, if_false, if_true] <;>
    split_ifs <;>
    simp_all

/-- C9 witness. -/
theorem rtsl_c9_witness :
    Record.psd (u64 ((42 : Int) - (7 : Nat))) ∈
      (step (mkEnv 42 0) { rtslZero with running := true, psd := { delta_start := 7, max := 0 }, dst := { pid := 3, delta_start := 9, max := 0 } } (Event.preempt_enable true)).2 ∧
    Record.dst (u64 ((42 : Int) - (9 : Nat))) ∈
      (step (mkEnv 42 0) { rtslZero with running := true, psd := { delta_start := 7, max := 0 }, dst := { pid := 3, delta_start := 9, max := 0 } } (Event.preempt_enable true)).2 :=
  have h := rtsl_c9 (mkEnv 42 0) { rtslZero with running := true, psd := { delta_start := 7, max := 0 }, dst := { pid := 3, delta_start := 9, max := 0 } } (by decide) (by decide)
  ⟨h.1, h.2.2.1 (by decide)⟩

/-- C10: the schedule-path preempt-enable handler closes PSD
unconditionally: while running with PSD not open (start 0) it still
emits a `psd` record whose duration is the raw clock value (now − 0),
whereas the DST closure in the same handler is guarded and skipped when
DST is not open. -/
theorem rtsl_c10 (env : Env) (v : RtslVariables) (hrun : v.running = true)
    (hpsd : v.psd.delta_start = 0) (hdst : v.dst.delta_start = 0)
    (hnow : env.now < 2 ^ 64) :
    Record.psd env.now ∈ (step env v (Event.preempt_enable true)).2 ∧
    ∀ d, Record.dst d ∉ (step env v (Event.preempt_enable true)).2 := by
  have hu : u64 ((env.now : Int) - ((0 : Nat) : Int)) = env.now := by
    simpa using u64_sub env.now 0 (Nat.zero_le _) hnow
  constructor
  · simp only [step, handle_preempt_enable_sched, get_int_safe_duration, hrun,
      Bool.true_eq_false, if_false, hpsd, hdst, hu]
    split_ifs <;> simp_all [hu]
  · intro d
    simp only [step, handle_preempt_enable_sched, get_int_safe_duration, hrun,
      Bool.true_eq_false, if_false, hpsd, hdst, hu]
    split_ifs <;> simp_all [hu]

/-- C10 witness. -/
theorem rtsl_c10_witness :
    Record.psd 42 ∈
      (step (mkEnv 42 5) { rtslZero with running := true } (Event.preempt_enable true)).2 ∧
    ∀ d, Record.dst d ∉
      (step (mkEnv 42 5) { rtslZero with running := true } (Event.preempt_enable true)).2 :=
  rtsl_c10 (mkEnv 42 5) { rtslZero with running := true } (by decide) (by decide)
    (by decide) (by decide)


/-! ## C1: interference removal for POID windows -/

lemma timesOrdered_le : ∀ (t : Nat) (l : List (Nat × Nat)) (t1 : Nat),
    timesOrdered t l t1 → t ≤ t1
  | _, [], _, h => h
  | _, p :: rest, t1, h =>
    le_trans (le_trans h.1 h.2.1) (timesOrdered_le p.2 rest t1 h.2.2)

lemma poidRecords_append (l1 l2 : List Record) :
    poidRecords (l1 ++ l2) = poidRecords l1 ++ poidRecords l2 :=
  List.filterMap_append _ _ _

lemma runTrace_append (v : RtslVariables) (l1 l2 : List (Env × Event)) :
    runTrace v (l1 ++ l2) =
      ((runTrace (runTrace v l1).1 l2).1,
        (runTrace v l1).2 ++ (runTrace (runTrace v l1).1 l2).2) := by
  induction l1 generalizing v with
  | nil => simp [runTrace]
  | cons ee rest ih =>
    simp only [List.cons_append, runTrace, List.append_eq]
    rw [ih]
    rw [List.append_assoc]

lemma step_irq_disable_entry (env : Env) (v : RtslVariables)
    (hrun : v.running = true) (hpsd : v.psd.delta_start = 0) :
    step env v (Event.irq_disable true) =
      ({ v with irq := { arrival_time := env.now, delta_start := env.now, was_psd := v.irq.was_psd, vector := v.irq.vector } }, []) := by
  have hr : ¬ v.running = false := by simp [hrun]
  simp [step, hr, handle_irq_disable_irq, hpsd, set_int_safe_delta_start]

lemma step_irq_enable_exit (env : Env) (v : RtslVariables)
    (hrun : v.running = true) (hpoid : v.poid.delta_start ≠ 0)
    (hdst : v.dst.delta_start = 0) (hpaie : v.paie.delta_start = 0)
    (hwas : v.irq.was_psd = false) :
    step env v (Event.irq_enable true) =
      ({ v with poid := { v.poid with delta_start := u64add v.poid.delta_start (u64 ((env.now : Int) - (v.irq.delta_start : Int))) }, irq := { v.irq with delta_start := 0, vector := 0, was_psd := false } },
        [Record.irq_execution v.irq.vector v.irq.arrival_time
          (u64 ((env.now : Int) - (v.irq.delta_start : Int)))]) := by
  have hr : ¬ v.running = false := by simp [hrun]
  simp [step, hr, handle_irq_enable_irq, irq_occurence, get_int_safe_duration,
    hpoid, hdst, hpaie, hwas]

lemma irqTotal_cons (a b : Nat) (rest : List (Nat × Nat)) :
    irqTotal ((a, b) :: rest) = (b - a) + irqTotal rest := by
  simp [irqTotal]

lemma irqEpisodes_cons (pid a b : Nat) (rest : List (Nat × Nat)) :
    irqEpisodes pid ((a, b) :: rest) =
      [(mkEnv a pid, Event.irq_disable true), (mkEnv b pid, Event.irq_enable true)] ++
        irqEpisodes pid rest := rfl

lemma episode_state (pid a b : Nat) (v : RtslVariables)
    (hrun : v.running = true) (hpoid : v.poid.delta_start ≠ 0)
    (hwas : v.irq.was_psd = false)
    (hpsd : v.psd.delta_start = 0) (hdst : v.dst.delta_start = 0)
    (hpaie : v.paie.delta_start = 0)
    (hab : a ≤ b) (hb : b < 2 ^ 64)
    (hsa : v.poid.delta_start + (b - a) < 2 ^ 64) :
    (runTrace v [(mkEnv a pid, Event.irq_disable true),
        (mkEnv b pid, Event.irq_enable true)]).1.running = true ∧
    (runTrace v [(mkEnv a pid, Event.irq_disable true),
        (mkEnv b pid, Event.irq_enable true)]).1.poid.delta_start =
      v.poid.delta_start + (b - a) ∧
    (runTrace v [(mkEnv a pid, Event.irq_disable true),
        (mkEnv b pid, Event.irq_enable true)]).1.poid.id = v.poid.id ∧
    (runTrace v [(mkEnv a pid, Event.irq_disable true),
        (mkEnv b pid, Event.irq_enable true)]).1.poid.pd = v.poid.pd ∧
    (runTrace v [(mkEnv a pid, Event.irq_disable true),
        (mkEnv b pid, Event.irq_enable true)]).1.poid.max = v.poid.max ∧
    (runTrace v [(mkEnv a pid, Event.irq_disable true),
        (mkEnv b pid, Event.irq_enable true)]).1.irq.delta_start = 0 ∧
    (runTrace v [(mkEnv a pid, Event.irq_disable true),
        (mkEnv b pid, Event.irq_enable true)]).1.irq.was_psd = false ∧
    (runTrace v [(mkEnv a pid, Event.irq_disable true),
        (mkEnv b pid, Event.irq_enable true)]).1.psd.delta_start = 0 ∧
    (runTrace v [(mkEnv a pid, Event.irq_disable true),
        (mkEnv b pid, Event.irq_enable true)]).1.dst.delta_start = 0 ∧
    (runTrace v [(mkEnv a pid, Event.irq_disable true),
        (mkEnv b pid, Event.irq_enable true)]).1.paie.delta_start = 0 ∧
    poidRecords (runTrace v [(mkEnv a pid, Event.irq_disable true),
        (mkEnv b pid, Event.irq_enable true)]).2 = [] := by
  have hA := step_irq_disable_entry (mkEnv a pid) v hrun hpsd
  simp only [runTrace]
  have s1run : (step (mkEnv a pid) v (Event.irq_disable true)).1.running = true := by
    rw [hA]
    exact hrun
  have s1poid : (step (mkEnv a pid) v (Event.irq_disable true)).1.poid.delta_start ≠ 0 := by
    rw [hA]
    exact hpoid
  have s1dst : (step (mkEnv a pid) v (Event.irq_disable true)).1.dst.delta_start = 0 := by
    rw [hA]
    exact hdst
  have s1paie : (step (mkEnv a pid) v (Event.irq_disable true)).1.paie.delta_start = 0 := by
    rw [hA]
    exact hpaie
  have s1was : (step (mkEnv a pid) v (Event.irq_disable true)).1.irq.was_psd = false := by
    rw [hA]
    exact hwas
  rw [step_irq_enable_exit (mkEnv b pid) _ s1run s1poid s1dst s1paie s1was]
  rw [hA]
  dsimp only [mkEnv]
  have hdur : u64 ((b : Int) - ((a : Nat) : Int)) = b - a := u64_sub b a hab hb
  rw [hdur, u64add_small _ _ hsa]
  exact ⟨hrun, rfl, rfl, rfl, rfl, rfl, rfl, hpsd, hdst, hpaie, rfl⟩

lemma runTrace_irqEpisodes (pid t1 : Nat) (l : List (Nat × Nat)) :
    ∀ (v : RtslVariables) (t : Nat),
      v.running = true → 0 < v.poid.delta_start →
      v.irq.delta_start = 0 → v.irq.was_psd = false →
      v.psd.delta_start = 0 → v.dst.delta_start = 0 → v.paie.delta_start = 0 →
      timesOrdered t l t1 → v.poid.delta_start ≤ t → t1 < 2 ^ 64 →
      (runTrace v (irqEpisodes pid l)).1.running = true ∧
      (runTrace v (irqEpisodes pid l)).1.poid.delta_start =
        v.poid.delta_start + irqTotal l ∧
      (runTrace v (irqEpisodes pid l)).1.poid.id = v.poid.id ∧
      (runTrace v (irqEpisodes pid l)).1.poid.pd = v.poid.pd ∧
      (runTrace v (irqEpisodes pid l)).1.poid.max = v.poid.max ∧
      (runTrace v (irqEpisodes pid l)).1.irq.delta_start = 0 ∧
      (runTrace v (irqEpisodes pid l)).1.irq.was_psd = false ∧
      (runTrace v (irqEpisodes pid l)).1.psd.delta_start = 0 ∧
      (runTrace v (irqEpisodes pid l)).1.dst.delta_start = 0 ∧
      (runTrace v (irqEpisodes pid l)).1.paie.delta_start = 0 ∧
      poidRecords (runTrace v (irqEpisodes pid l)).2 = [] ∧
      v.poid.delta_start + irqTotal l ≤ t1 := by
  induction l with
  | nil =>
    intro v t hrun hs hirq hwas hpsd hdst hpaie hord hst ht1
    have hle : t ≤ t1 := hord
    refine ⟨hrun, ?_, rfl, rfl, rfl, hirq, hwas, hpsd, hdst, hpaie, rfl, ?_⟩
    · simp [irqTotal, runTrace]
    · simp only [irqTotal, List.map_nil, List.sum_nil]
      omega
  | cons p rest ih =>
    obtain ⟨a, b⟩ := p
    intro v t hrun hs hirq hwas hpsd hdst hpaie hord hst ht1
    obtain ⟨hta, hab, hrest⟩ : t ≤ a ∧ a ≤ b ∧ timesOrdered b rest t1 := hord
    have hbt1 : b ≤ t1 := timesOrdered_le _ _ _ hrest
    have hsa : v.poid.delta_start + (b - a) < 2 ^ 64 := by omega
    obtain ⟨e1, e2, e3, e4, e5, e6, e7, e8, e9, e10, e11⟩ :=
      episode_state pid a b v hrun (by omega) hwas hpsd hdst hpaie hab (by omega) hsa
    rw [irqEpisodes_cons, runTrace_append]
    obtain ⟨r1, r2, r3, r4, r5, r6, r7, r8, r9, r10, r11, r12⟩ :=
      ih (runTrace v [(mkEnv a pid, Event.irq_disable true),
          (mkEnv b pid, Event.irq_enable true)]).1 b
        e1 (by omega) e6 e7 e8 e9 e10 hrest (by omega) ht1
    rw [irqTotal_cons]
    refine ⟨r1, ?_, ?_, ?_, ?_, r6, r7, r8, r9, r10, ?_, ?_⟩
    · rw [r2, e2]
      omega
    · rw [r3, e3]
    · rw [r4, e4]
    · rw [r5, e5]
    · rw [poidRecords_append, e11, r11]
      rfl
    · rw [e2] at r12
      omega

lemma step_preempt_disable_nosched_open (env : Env) (v : RtslVariables)
    (hrun : v.running = true) (hirq : v.irq.delta_start = 0) (hid : v.poid.id = false) :
    step env v (Event.preempt_disable false) =
      ({ v with poid := { pd := true, id := v.poid.id, delta_start := env.now, max := v.poid.max } }, []) := by
  have hr : ¬ v.running = false := by simp [hrun]
  simp [step, handle_preempt_disable_nosched, hr, hirq, hid, set_int_safe_delta_start]

lemma step_preempt_enable_nosched_close (env : Env) (v : RtslVariables)
    (hrun : v.running = true) (hirq : v.irq.delta_start = 0) (hid : v.poid.id = false)
    (hpoid : v.poid.delta_start ≠ 0) (hpid : env.pid ≠ 0) (hnr : env.needResched = false) :
    poidRecords (step env v (Event.preempt_enable false)).2 =
      [u64 ((env.now : Int) - (v.poid.delta_start : Int))] := by
  have hr : ¬ v.running = false := by simp [hrun]
  have hstep : step env v (Event.preempt_enable false) =
      handle_preempt_enable_nosched env v := rfl
  rw [hstep]
  simp only [handle_preempt_enable_nosched, poid_duration, get_int_safe_duration,
    hr, hirq, hid, hnr, hpoid, hpid]
  split_ifs <;> first | rfl | simp_all

theorem rtsl_c1 (pid t0 t1 : Nat) (l : List (Nat × Nat)) (v : RtslVariables)
    (hrun : v.running = true) (hid : v.poid.id = false)
    (hirq : v.irq.delta_start = 0) (hwas : v.irq.was_psd = false)
    (hpsd : v.psd.delta_start = 0) (hdst : v.dst.delta_start = 0)
    (hpaie : v.paie.delta_start = 0)
    (ht0 : 0 < t0) (hpid : pid ≠ 0) (hord : timesOrdered t0 l t1) (ht1 : t1 < 2 ^ 64) :
    poidRecords (runTrace v (c1Trace pid t0 t1 l)).2 = [t1 - t0 - irqTotal l] := by
  have hopen := step_preempt_disable_nosched_open (mkEnv t0 pid) v hrun hirq hid
  rw [c1Trace, runTrace]
  dsimp only
  rw [runTrace_append]
  set X := (step (mkEnv t0 pid) v (Event.preempt_disable false)).1 with hXdef
  have x1 : X.running = true := by
    rw [hXdef, hopen]
    exact hrun
  have xdelta : X.poid.delta_start = t0 := by
    rw [hXdef, hopen]
    rfl
  have xid : X.poid.id = false := by
    rw [hXdef, hopen]
    exact hid
  have xirq : X.irq.delta_start = 0 := by
    rw [hXdef, hopen]
    exact hirq
  have xwas : X.irq.was_psd = false := by
    rw [hXdef, hopen]
    exact hwas
  have xpsd : X.psd.delta_start = 0 := by
    rw [hXdef, hopen]
    exact hpsd
  have xdst : X.dst.delta_start = 0 := by
    rw [hXdef, hopen]
    exact hdst
  have xpaie : X.paie.delta_start = 0 := by
    rw [hXdef, hopen]
    exact hpaie
  have xrecs : poidRecords (step (mkEnv t0 pid) v (Event.preempt_disable false)).2 = [] := by
    rw [hopen]
    rfl
  obtain ⟨A1, A2, A3, A4, A5, A6, A7, A8, A9, A10, A11, A12⟩ :=
    runTrace_irqEpisodes pid t1 l X t0 x1 (by omega) xirq xwas xpsd xdst xpaie hord
      (by omega) ht1
  have hyid : (runTrace X (irqEpisodes pid l)).1.poid.id = false := by
    rw [A3]
    exact xid
  have hypoid : (runTrace X (irqEpisodes pid l)).1.poid.delta_start ≠ 0 := by
    rw [A2]
    omega
  have hclose := step_preempt_enable_nosched_close (mkEnv t1 pid)
    (runTrace X (irqEpisodes pid l)).1 A1 A6 hyid hypoid hpid rfl
  have hdur : u64 (((mkEnv t1 pid).now : Int) -
      ((runTrace X (irqEpisodes pid l)).1.poid.delta_start : Int)) =
      t1 - t0 - irqTotal l := by
    dsimp only [mkEnv]
    rw [A2, xdelta]
    rw [xdelta] at A12
    have := u64_sub t1 (t0 + irqTotal l) A12 ht1
    rw [this]
    omega
  rw [hdur] at hclose
  simp only [runTrace, xrecs, poidRecords_append, A11, hclose, List.append_nil,
    List.nil_append]

/-- C1 witness. -/
theorem rtsl_c1_witness :
    poidRecords (runTrace { rtslZero with running := true }
      (c1Trace 1 10 20 [(12, 15)])).2 = [7] :=
  rtsl_c1 1 10 20 [(12, 15)] { rtslZero with running := true }
    (by decide) (by decide) (by decide) (by decide) (by decide) (by decide) (by decide)
    (by decide) (by decide) (by decide) (by decide)

end Rtsl
